import Mathlib

/-!
# Verification of the per-executor scheduling round bookkeeping

A shallow embedding of `internal/scheduler/context/context.go`: the
`SchedulingContext` / `QueueSchedulingContext` / `JobSchedulingContext`
data model and its mutating operations (queue registration, job and gang
apply, job and gang evict, infeasible-key cache maintenance).

Modelling conventions:
* Go resource lists (`schedulerobjects.ResourceList`, maps from resource
  name to quantity, missing key = zero) are total functions `R → Int`
  over a finite universe `R` of resource names in play;
  `QuantityByTAndResourceType` becomes `PC → R → Int` over a finite
  universe `PC` of priority-class names.  Addition and subtraction are
  pointwise, exactly as `AddV1ResourceList` / `SubV1ResourceList`.
* Go maps keyed by job id or queue name become `String → Option _`
  (membership = `isSome`); `map[string]bool` becomes `String → Bool`.
* Each Go method mutating its receiver and returning `(bool, error)`
  becomes a pure function returning the post-state paired with
  `Except String Bool`; an early `return err` in Go (receiver untouched
  so far) is transcribed as returning the input state with `.error`.
* Scheduling keys are an opaque type `K`; the scheduling-key generator
  (a pure fingerprint over placement-relevant attributes) is carried as
  the field `SchedulingKeyOf`.  Wall-clock fields (`Started`,
  `Finished`, `Created`) and rate-limiter handles are outside the
  embedding: no operation modelled here reads them.
* `float64` queue weights are modelled as `ℚ`.
-/

namespace ArmadaSchedCtx

variable {R PC K : Type}

/-- Models `schedulerobjects.PodRequirements`; only the
`ResourceRequirements.Requests` component is read by the operations
modelled here, so the intermediate `ResourceRequirements` wrapper is
flattened away. -/
structure PodRequirements (R : Type) where
  Requests : R → Int

/-- Models the `interfaces.LegacySchedulerJob` capability set, restricted
to the methods the context operations call: `GetId`, `GetQueue`,
`GetPriorityClassName`, and `GetResourceRequirements().Requests`. -/
structure Job (R PC : Type) where
  Id : String
  Queue : String
  PriorityClassName : PC
  Requests : R → Int

/-- Models `JobSchedulingContext` (the fields the operations read). -/
structure JobSchedulingContext (R PC : Type) where
  JobId : String
  Job : Job R PC
  PodRequirements : Option (PodRequirements R)
  UnschedulableReason : String

/-- `jctx.IsSuccessful()`: true iff the unschedulable reason is empty. -/
def JobSchedulingContext.IsSuccessful (jctx : JobSchedulingContext R PC) : Bool :=
  jctx.UnschedulableReason == ""

/-- The requests of `jctx.PodRequirements.ResourceRequirements.Requests`.
Go dereferences the `PodRequirements` pointer directly at the
`SchedulingContext` level; that site is only reached for successful
decisions, for which the queue-level add has already rejected a nil
`PodRequirements`, so the `none` case is unreachable there. -/
def JobSchedulingContext.Requests (jctx : JobSchedulingContext R PC) : R → Int :=
  match jctx.PodRequirements with
  | some podRequirements => podRequirements.Requests
  | none => fun _ => 0

/-- `m.AddV1ResourceList(c, rl)` on a `QuantityByTAndResourceType`:
add `rl` into the entry at priority class `c`. -/
def addAt [DecidableEq PC] (m : PC → R → Int) (c : PC) (rl : R → Int) : PC → R → Int :=
  fun p => if p = c then m p + rl else m p

/-- `m.SubV1ResourceList(c, rl)` on a `QuantityByTAndResourceType`:
subtract `rl` from the entry at priority class `c`. -/
def subAt [DecidableEq PC] (m : PC → R → Int) (c : PC) (rl : R → Int) : PC → R → Int :=
  fun p => if p = c then m p - rl else m p

/-- Models `QueueSchedulingContext` (invariant-relevant fields; the
back-reference to the round, timestamps, executor id and the rate
limiter are never read by the modelled operations). -/
structure QueueSchedulingContext (R PC : Type) where
  Queue : String
  Weight : ℚ
  Allocated : R → Int
  AllocatedByPriorityClass : PC → R → Int
  ScheduledResourcesByPriorityClass : PC → R → Int
  EvictedResourcesByPriorityClass : PC → R → Int
  SuccessfulJobSchedulingContexts : String → Option (JobSchedulingContext R PC)
  UnsuccessfulJobSchedulingContexts : String → Option (JobSchedulingContext R PC)
  EvictedJobsById : String → Bool

/-- Models `SchedulingContext` (invariant-relevant fields). -/
structure SchedulingContext (R PC K : Type) where
  WeightSum : ℚ
  QueueSchedulingContexts : String → Option (QueueSchedulingContext R PC)
  TotalResources : R → Int
  ScheduledResources : R → Int
  ScheduledResourcesByPriorityClass : PC → R → Int
  EvictedResources : R → Int
  EvictedResourcesByPriorityClass : PC → R → Int
  NumScheduledJobs : Int
  NumScheduledGangs : Int
  NumEvictedJobs : Int
  SchedulingKeyOf : Job R PC → K
  UnfeasibleSchedulingKeys : K → Option (JobSchedulingContext R PC)

/-- `NewSchedulingContext`: zero counters, empty queue map, empty
infeasible-key cache, deep-copied total resources. -/
def NewSchedulingContext (totalResources : R → Int) (schedulingKeyOf : Job R PC → K) :
    SchedulingContext R PC K where
  WeightSum := 0
  QueueSchedulingContexts := fun _ => none
  TotalResources := totalResources
  ScheduledResources := fun _ => 0
  ScheduledResourcesByPriorityClass := fun _ _ => 0
  EvictedResources := fun _ => 0
  EvictedResourcesByPriorityClass := fun _ _ => 0
  NumScheduledJobs := 0
  NumScheduledGangs := 0
  NumEvictedJobs := 0
  SchedulingKeyOf := schedulingKeyOf
  UnfeasibleSchedulingKeys := fun _ => none

/-- The queue context literal built inside `AddQueueSchedulingContext`:
empty decision sets, zero per-round resources, `Allocated` the sum of
the (deep-copied) initial per-class entries. -/
def newQueueSchedulingContext [Fintype PC] (queue : String) (weight : ℚ)
    (initAlloc : PC → R → Int) : QueueSchedulingContext R PC where
  Queue := queue
  Weight := weight
  Allocated := fun r => Finset.univ.sum (fun p => initAlloc p r)
  AllocatedByPriorityClass := initAlloc
  ScheduledResourcesByPriorityClass := fun _ _ => 0
  EvictedResourcesByPriorityClass := fun _ _ => 0
  SuccessfulJobSchedulingContexts := fun _ => none
  UnsuccessfulJobSchedulingContexts := fun _ => none
  EvictedJobsById := fun _ => false

/-- `sctx.AddQueueSchedulingContext(queue, weight, initialAllocatedByPriorityClass, limiter)`:
fails on duplicate queue; nil initial map becomes empty, otherwise it is
deep-copied; the initial `Allocated` is the sum of the per-class
entries; `WeightSum` accumulates the weight. -/
def SchedulingContext.AddQueueSchedulingContext [DecidableEq PC] [Fintype PC]
    (sctx : SchedulingContext R PC K) (queue : String) (weight : ℚ)
    (initialAllocatedByPriorityClass : Option (PC → R → Int)) :
    SchedulingContext R PC K × Except String Unit :=
  if (sctx.QueueSchedulingContexts queue).isSome then
    (sctx, .error "there already exists a context for queue")
  else
    ({ sctx with
        WeightSum := sctx.WeightSum + weight
        QueueSchedulingContexts :=
          Function.update sctx.QueueSchedulingContexts queue
            (some (newQueueSchedulingContext queue weight
              (initialAllocatedByPriorityClass.getD (fun _ _ => 0)))) },
      .ok ())

/-- `qctx.AddJobSchedulingContext(jctx)` (queue level, lines 460-491):
duplicate checks, then for a successful decision always add the pod
requests to `Allocated` and `AllocatedByPriorityClass`; if the job was
evicted this round, remove it from the evicted set and subtract from
`EvictedResourcesByPriorityClass`, else record it successful and add to
`ScheduledResourcesByPriorityClass`.  Unsuccessful decisions are only
recorded.  Returns whether the job was in the evicted set at entry. -/
def QueueSchedulingContext.AddJobSchedulingContext [DecidableEq PC]
    (qctx : QueueSchedulingContext R PC) (jctx : JobSchedulingContext R PC) :
    QueueSchedulingContext R PC × Except String Bool :=
  if (qctx.SuccessfulJobSchedulingContexts jctx.JobId).isSome then
    (qctx, .error "failed adding job to queue: job already marked successful")
  else if (qctx.UnsuccessfulJobSchedulingContexts jctx.JobId).isSome then
    (qctx, .error "failed adding job to queue: job already marked unsuccessful")
  else
    let evictedInThisRound := qctx.EvictedJobsById jctx.JobId
    if jctx.IsSuccessful then
      match jctx.PodRequirements with
      | none => (qctx, .error "failed adding job to queue: job requirements are missing")
      | some podRequirements =>
        let qctx1 := { qctx with
          Allocated := qctx.Allocated + podRequirements.Requests
          AllocatedByPriorityClass :=
            addAt qctx.AllocatedByPriorityClass jctx.Job.PriorityClassName
              podRequirements.Requests }
        if evictedInThisRound then
          ({ qctx1 with
              EvictedJobsById := Function.update qctx1.EvictedJobsById jctx.JobId false
              EvictedResourcesByPriorityClass :=
                subAt qctx1.EvictedResourcesByPriorityClass jctx.Job.PriorityClassName
                  podRequirements.Requests },
            .ok evictedInThisRound)
        else
          ({ qctx1 with
              SuccessfulJobSchedulingContexts :=
                Function.update qctx1.SuccessfulJobSchedulingContexts jctx.JobId (some jctx)
              ScheduledResourcesByPriorityClass :=
                addAt qctx1.ScheduledResourcesByPriorityClass jctx.Job.PriorityClassName
                  podRequirements.Requests },
            .ok evictedInThisRound)
    else
      ({ qctx with
          UnsuccessfulJobSchedulingContexts :=
            Function.update qctx.UnsuccessfulJobSchedulingContexts jctx.JobId (some jctx) },
        .ok evictedInThisRound)

/-- `sctx.AddJobSchedulingContext(jctx)` (round level, lines 242-263):
delegate to the job's queue; for a successful decision update the round
aggregates according to whether the job was evicted this round. -/
def SchedulingContext.AddJobSchedulingContext [DecidableEq PC]
    (sctx : SchedulingContext R PC K) (jctx : JobSchedulingContext R PC) :
    SchedulingContext R PC K × Except String Bool :=
  match sctx.QueueSchedulingContexts jctx.Job.Queue with
  | none => (sctx, .error "failed adding job to scheduling context: no context for queue")
  | some qctx =>
    match qctx.AddJobSchedulingContext jctx with
    | (_, .error e) => (sctx, .error e)
    | (qctx1, .ok evictedInThisRound) =>
      let sctx1 := { sctx with
        QueueSchedulingContexts :=
          Function.update sctx.QueueSchedulingContexts jctx.Job.Queue (some qctx1) }
      if jctx.IsSuccessful then
        if evictedInThisRound then
          ({ sctx1 with
              EvictedResources := sctx1.EvictedResources - jctx.Requests
              EvictedResourcesByPriorityClass :=
                subAt sctx1.EvictedResourcesByPriorityClass jctx.Job.PriorityClassName
                  jctx.Requests
              NumEvictedJobs := sctx1.NumEvictedJobs - 1 },
            .ok evictedInThisRound)
        else
          ({ sctx1 with
              ScheduledResources := sctx1.ScheduledResources + jctx.Requests
              ScheduledResourcesByPriorityClass :=
                addAt sctx1.ScheduledResourcesByPriorityClass jctx.Job.PriorityClassName
                  jctx.Requests
              NumScheduledJobs := sctx1.NumScheduledJobs + 1 },
            .ok evictedInThisRound)
      else
        (sctx1, .ok evictedInThisRound)

/-- Loop body of `sctx.AddGangSchedulingContext` (lines 223-238), with
the two accumulator booleans `allJobsEvictedInThisRound` and
`allJobsSuccessful` made explicit; after the loop, if all successful and
not all evicted, `NumScheduledGangs` is incremented. -/
def SchedulingContext.addGangAux [DecidableEq PC] (sctx : SchedulingContext R PC K)
    (allJobsEvictedInThisRound allJobsSuccessful : Bool) :
    List (JobSchedulingContext R PC) → SchedulingContext R PC K × Except String Bool
  | [] =>
    if allJobsSuccessful && !allJobsEvictedInThisRound then
      ({ sctx with NumScheduledGangs := sctx.NumScheduledGangs + 1 },
        .ok allJobsEvictedInThisRound)
    else
      (sctx, .ok allJobsEvictedInThisRound)
  | jctx :: rest =>
    match sctx.AddJobSchedulingContext jctx with
    | (sctx1, .error e) => (sctx1, .error e)
    | (sctx1, .ok evictedInThisRound) =>
      sctx1.addGangAux (allJobsEvictedInThisRound && evictedInThisRound)
        (allJobsSuccessful && jctx.IsSuccessful) rest

/-- `sctx.AddGangSchedulingContext(gctx)`: apply each contained
`JobSchedulingContext` in order (the gang context contributes only its
job list here). -/
def SchedulingContext.AddGangSchedulingContext [DecidableEq PC]
    (sctx : SchedulingContext R PC K) (jctxs : List (JobSchedulingContext R PC)) :
    SchedulingContext R PC K × Except String Bool :=
  sctx.addGangAux true true jctxs

/-- `qctx.EvictJob(job)` (queue level, lines 493-513). -/
def QueueSchedulingContext.EvictJob [DecidableEq PC]
    (qctx : QueueSchedulingContext R PC) (job : Job R PC) :
    QueueSchedulingContext R PC × Except String Bool :=
  if (qctx.UnsuccessfulJobSchedulingContexts job.Id).isSome then
    (qctx, .error "failed evicting job from queue: job already marked unsuccessful")
  else if qctx.EvictedJobsById job.Id then
    (qctx, .error "failed evicting job from queue: job already marked evicted")
  else
    let rl := job.Requests
    let scheduledInThisRound := (qctx.SuccessfulJobSchedulingContexts job.Id).isSome
    let qctx1 :=
      if scheduledInThisRound then
        { qctx with
            ScheduledResourcesByPriorityClass :=
              subAt qctx.ScheduledResourcesByPriorityClass job.PriorityClassName rl
            SuccessfulJobSchedulingContexts :=
              Function.update qctx.SuccessfulJobSchedulingContexts job.Id none }
      else
        { qctx with
            EvictedResourcesByPriorityClass :=
              addAt qctx.EvictedResourcesByPriorityClass job.PriorityClassName rl
            EvictedJobsById := Function.update qctx.EvictedJobsById job.Id true }
    ({ qctx1 with
        Allocated := qctx1.Allocated - rl
        AllocatedByPriorityClass :=
          subAt qctx1.AllocatedByPriorityClass job.PriorityClassName rl },
      .ok scheduledInThisRound)

/-- `sctx.EvictJob(job)` (round level, lines 280-300). -/
def SchedulingContext.EvictJob [DecidableEq PC]
    (sctx : SchedulingContext R PC K) (job : Job R PC) :
    SchedulingContext R PC K × Except String Bool :=
  match sctx.QueueSchedulingContexts job.Queue with
  | none => (sctx, .error "failed evicting job from scheduling context: no context for queue")
  | some qctx =>
    match qctx.EvictJob job with
    | (_, .error e) => (sctx, .error e)
    | (qctx1, .ok scheduledInThisRound) =>
      let sctx1 := { sctx with
        QueueSchedulingContexts :=
          Function.update sctx.QueueSchedulingContexts job.Queue (some qctx1) }
      if scheduledInThisRound then
        ({ sctx1 with
            ScheduledResources := sctx1.ScheduledResources - job.Requests
            ScheduledResourcesByPriorityClass :=
              subAt sctx1.ScheduledResourcesByPriorityClass job.PriorityClassName job.Requests
            NumScheduledJobs := sctx1.NumScheduledJobs - 1 },
          .ok scheduledInThisRound)
      else
        ({ sctx1 with
            EvictedResources := sctx1.EvictedResources + job.Requests
            EvictedResourcesByPriorityClass :=
              addAt sctx1.EvictedResourcesByPriorityClass job.PriorityClassName job.Requests
            NumEvictedJobs := sctx1.NumEvictedJobs + 1 },
          .ok scheduledInThisRound)

/-- Loop body of `sctx.EvictGang` (lines 265-278), with the accumulator
`allJobsScheduledInThisRound` explicit; after the loop, if it holds,
`NumScheduledGangs` is decremented. -/
def SchedulingContext.evictGangAux [DecidableEq PC] (sctx : SchedulingContext R PC K)
    (allJobsScheduledInThisRound : Bool) :
    List (Job R PC) → SchedulingContext R PC K × Except String Bool
  | [] =>
    if allJobsScheduledInThisRound then
      ({ sctx with NumScheduledGangs := sctx.NumScheduledGangs - 1 },
        .ok allJobsScheduledInThisRound)
    else
      (sctx, .ok allJobsScheduledInThisRound)
  | job :: rest =>
    match sctx.EvictJob job with
    | (sctx1, .error e) => (sctx1, .error e)
    | (sctx1, .ok scheduledInThisRound) =>
      sctx1.evictGangAux (allJobsScheduledInThisRound && scheduledInThisRound) rest

/-- `sctx.EvictGang(jobs)`. -/
def SchedulingContext.EvictGang [DecidableEq PC]
    (sctx : SchedulingContext R PC K) (jobs : List (Job R PC)) :
    SchedulingContext R PC K × Except String Bool :=
  sctx.evictGangAux true jobs

/-- `sctx.ClearUnfeasibleSchedulingKeys()` (lines 114-116). -/
def SchedulingContext.ClearUnfeasibleSchedulingKeys
    (sctx : SchedulingContext R PC K) : SchedulingContext R PC K :=
  { sctx with UnfeasibleSchedulingKeys := fun _ => none }

/-- Callers add `(key, jctx)` pairs to the infeasible-key cache by a
direct map insertion (`sctx.UnfeasibleSchedulingKeys[key] = jctx`); this
models that public-field write. -/
def SchedulingContext.InsertUnfeasibleSchedulingKey [DecidableEq K]
    (sctx : SchedulingContext R PC K) (k : K) (jctx : JobSchedulingContext R PC) :
    SchedulingContext R PC K :=
  { sctx with
      UnfeasibleSchedulingKeys := Function.update sctx.UnfeasibleSchedulingKeys k (some jctx) }

/-- `m.IsZero()` on a `QuantityByTAndResourceType`: every entry zero. -/
def QuantityIsZero (m : PC → R → Int) : Prop :=
  ∀ p r, m p r = 0

instance [Fintype R] [Fintype PC] (m : PC → R → Int) : Decidable (QuantityIsZero m) :=
  inferInstanceAs (Decidable (∀ p r, m p r = 0))

/-- `sctx.AllocatedByQueueAndPriority()` (lines 320-331): the map from
queue name to a deep copy of `AllocatedByPriorityClass`, skipping queues
whose allocation is entirely zero. -/
def SchedulingContext.AllocatedByQueueAndPriority [Fintype R] [Fintype PC]
    (sctx : SchedulingContext R PC K) : String → Option (PC → R → Int) :=
  fun queue =>
    match sctx.QueueSchedulingContexts queue with
    | none => none
    | some qctx =>
      if QuantityIsZero qctx.AllocatedByPriorityClass then none
      else some qctx.AllocatedByPriorityClass

/-- One public operation on a round, taken to its post-state.  Failed
calls advance to the state the Go method leaves its receiver in (for the
per-job operations that is the entry state; for the gang operations it
is the partially-applied state). -/
inductive Step [DecidableEq PC] [Fintype PC] [DecidableEq K] :
    SchedulingContext R PC K → SchedulingContext R PC K → Prop
  | addQueue (sctx : SchedulingContext R PC K) (queue : String) (weight : ℚ)
      (init : Option (PC → R → Int)) :
      Step sctx (sctx.AddQueueSchedulingContext queue weight init).1
  | addJob (sctx : SchedulingContext R PC K) (jctx : JobSchedulingContext R PC) :
      Step sctx (sctx.AddJobSchedulingContext jctx).1
  | addGang (sctx : SchedulingContext R PC K) (jctxs : List (JobSchedulingContext R PC)) :
      Step sctx (sctx.AddGangSchedulingContext jctxs).1
  | evictJob (sctx : SchedulingContext R PC K) (job : Job R PC) :
      Step sctx (sctx.EvictJob job).1
  | evictGang (sctx : SchedulingContext R PC K) (jobs : List (Job R PC)) :
      Step sctx (sctx.EvictGang jobs).1
  | insertUnfeasibleKey (sctx : SchedulingContext R PC K) (k : K)
      (jctx : JobSchedulingContext R PC) :
      Step sctx (sctx.InsertUnfeasibleSchedulingKey k jctx)
  | clearUnfeasibleKeys (sctx : SchedulingContext R PC K) :
      Step sctx sctx.ClearUnfeasibleSchedulingKeys

/-- States reachable from a freshly constructed round by any sequence of
public operations. -/
inductive Reachable [DecidableEq PC] [Fintype PC] [DecidableEq K] :
    SchedulingContext R PC K → Prop
  | init (totalResources : R → Int) (schedulingKeyOf : Job R PC → K) :
      Reachable (NewSchedulingContext totalResources schedulingKeyOf)
  | step {sctx sctx1 : SchedulingContext R PC K} :
      Reachable sctx → Step sctx sctx1 → Reachable sctx1

/-- A predicate on queue contexts, lifted to every registered queue. -/
def QueuesInv (P : QueueSchedulingContext R PC → Prop) (sctx : SchedulingContext R PC K) :
    Prop :=
  ∀ qn qctx, sctx.QueueSchedulingContexts qn = some qctx → P qctx

/-- Invariant 1 of the spec: the total allocation of a queue equals the
sum over priority classes of its per-class allocation. -/
def AllocSumInv [Fintype PC] (qctx : QueueSchedulingContext R PC) : Prop :=
  ∀ r, qctx.Allocated r = Finset.univ.sum (fun p => qctx.AllocatedByPriorityClass p r)

/-- Full pairwise disjointness of the three per-queue decision sets, as
claimed by the spec. -/
def DecisionSetsDisjoint (qctx : QueueSchedulingContext R PC) : Prop :=
  ∀ id, ((qctx.SuccessfulJobSchedulingContexts id).isSome →
      qctx.UnsuccessfulJobSchedulingContexts id = none ∧ qctx.EvictedJobsById id = false) ∧
    ((qctx.UnsuccessfulJobSchedulingContexts id).isSome → qctx.EvictedJobsById id = false)

/-- The part of the disjointness that the code maintains: the successful
set is disjoint from both the unsuccessful set and the evicted set. -/
def SuccessfulDisjoint (qctx : QueueSchedulingContext R PC) : Prop :=
  ∀ id, (qctx.SuccessfulJobSchedulingContexts id).isSome →
    qctx.UnsuccessfulJobSchedulingContexts id = none ∧ qctx.EvictedJobsById id = false

/-- The infeasible-key cache contains no key of a job recorded
successful in the same round (invariant 9 of the spec). -/
def UnfeasibleKeysInv (sctx : SchedulingContext R PC K) : Prop :=
  ∀ k jc, sctx.UnfeasibleSchedulingKeys k = some jc →
    ¬ ∃ qn qctx id jctx, sctx.QueueSchedulingContexts qn = some qctx ∧
      qctx.SuccessfulJobSchedulingContexts id = some jctx ∧
      sctx.SchedulingKeyOf jctx.Job = k

/-- Whether the id of `jctx` sits in its queue's evicted set in `sctx`
(false also when the queue is not registered). -/
def evictedAtEntry (sctx : SchedulingContext R PC K) (jctx : JobSchedulingContext R PC) :
    Bool :=
  match sctx.QueueSchedulingContexts jctx.Job.Queue with
  | some qctx => qctx.EvictedJobsById jctx.JobId
  | none => false

/-- Whether an operation result is an error. -/
def IsErrorResult : Except String α → Bool
  | .error _ => true
  | .ok _ => false

/-! ## Concrete fixtures used by witnesses and counterexamples.

Resource-name universe `Fin 1`, priority-class universe `Fin 1`,
scheduling keys `Unit`. -/

/-- A concrete job: id `j1`, queue `A`, requesting 2 units. -/
def exJob : Job (Fin 1) (Fin 1) :=
  { Id := "j1", Queue := "A", PriorityClassName := 0, Requests := fun _ => 2 }

/-- A successful decision for `exJob`. -/
def exJctxOk : JobSchedulingContext (Fin 1) (Fin 1) :=
  { JobId := "j1", Job := exJob, PodRequirements := some { Requests := fun _ => 2 }
    UnschedulableReason := "" }

/-- An unsuccessful decision for `exJob`. -/
def exJctxFail : JobSchedulingContext (Fin 1) (Fin 1) :=
  { JobId := "j1", Job := exJob, PodRequirements := some { Requests := fun _ => 2 }
    UnschedulableReason := "node selector mismatch" }

/-- A successful decision for `exJob` with missing pod requirements. -/
def exJctxNoReqs : JobSchedulingContext (Fin 1) (Fin 1) :=
  { JobId := "j2", Job := { exJob with Id := "j2" }, PodRequirements := none
    UnschedulableReason := "" }

/-- A fresh, empty queue context for queue `A`. -/
def exQctx0 : QueueSchedulingContext (Fin 1) (Fin 1) :=
  { Queue := "A", Weight := 1
    Allocated := fun _ => 0
    AllocatedByPriorityClass := fun _ _ => 0
    ScheduledResourcesByPriorityClass := fun _ _ => 0
    EvictedResourcesByPriorityClass := fun _ _ => 0
    SuccessfulJobSchedulingContexts := fun _ => none
    UnsuccessfulJobSchedulingContexts := fun _ => none
    EvictedJobsById := fun _ => false }

/-- A fresh round over the fixture universes. -/
def exSctx0 : SchedulingContext (Fin 1) (Fin 1) Unit :=
  NewSchedulingContext (fun _ => 10) (fun _ => ())

/-- The fixture round with queue `A` registered (weight 1, no initial
allocation). -/
def exSctx1 : SchedulingContext (Fin 1) (Fin 1) Unit :=
  (exSctx0.AddQueueSchedulingContext "A" 1 none).1

/-- The fixture round after additionally evicting `exJob` (which lands
in queue `A`'s evicted set). -/
def exSctxEvicted : SchedulingContext (Fin 1) (Fin 1) Unit :=
  (exSctx1.EvictJob exJob).1

/-! ## Helper lemmas -/

@[simp]
theorem addAt_apply_self [DecidableEq PC] (m : PC → R → Int) (c : PC) (rl : R → Int) :
    addAt m c rl c = m c + rl := by
  simp [addAt]

@[simp]
theorem subAt_apply_self [DecidableEq PC] (m : PC → R → Int) (c : PC) (rl : R → Int) :
    subAt m c rl c = m c - rl := by
  simp [subAt]

theorem addAt_apply_ne [DecidableEq PC] (m : PC → R → Int) (c p : PC) (rl : R → Int)
    (h : p ≠ c) : addAt m c rl p = m p := by
  simp [addAt, h]

theorem subAt_apply_ne [DecidableEq PC] (m : PC → R → Int) (c p : PC) (rl : R → Int)
    (h : p ≠ c) : subAt m c rl p = m p := by
  simp [subAt, h]

theorem sum_addAt [DecidableEq PC] [Fintype PC] (m : PC → R → Int) (c : PC)
    (rl : R → Int) (r : R) :
    Finset.univ.sum (fun p => addAt m c rl p r) =
      Finset.univ.sum (fun p => m p r) + rl r := by
  have h : ∀ p : PC, addAt m c rl p r = m p r + (if p = c then rl r else 0) := by
    intro p
    by_cases hp : p = c <;> simp [addAt, hp]
  rw [Finset.sum_congr rfl (fun p _ => h p), Finset.sum_add_distrib]
  simp

theorem sum_subAt [DecidableEq PC] [Fintype PC] (m : PC → R → Int) (c : PC)
    (rl : R → Int) (r : R) :
    Finset.univ.sum (fun p => subAt m c rl p r) =
      Finset.univ.sum (fun p => m p r) - rl r := by
  have h : ∀ p : PC, subAt m c rl p r = m p r - (if p = c then rl r else 0) := by
    intro p
    by_cases hp : p = c <;> simp [subAt, hp]
  rw [Finset.sum_congr rfl (fun p _ => h p), Finset.sum_sub_distrib]
  simp

theorem queuesInv_update {P : QueueSchedulingContext R PC → Prop}
    (f : String → Option (QueueSchedulingContext R PC)) (key : String)
    (qctx1 : QueueSchedulingContext R PC)
    (h : ∀ qn qc, f qn = some qc → P qc) (h1 : P qctx1) :
    ∀ qn qc, Function.update f key (some qctx1) qn = some qc → P qc := by
  intro qn qc hqc
  by_cases hk : qn = key
  · subst hk
    rw [Function.update_same] at hqc
    injection hqc with h2
    rwa [← h2]
  · rw [Function.update_noteq hk] at hqc
    exact h _ _ hqc

theorem queuesInv_addJob [DecidableEq PC] {P : QueueSchedulingContext R PC → Prop}
    (hP : ∀ qctx jctx, P qctx → P (qctx.AddJobSchedulingContext jctx).1)
    (sctx : SchedulingContext R PC K) (jctx : JobSchedulingContext R PC)
    (h : QueuesInv P sctx) : QueuesInv P (sctx.AddJobSchedulingContext jctx).1 := by
  unfold SchedulingContext.AddJobSchedulingContext
  cases hl : sctx.QueueSchedulingContexts jctx.Job.Queue with
  | none => dsimp only; exact h
  | some qctx =>
    dsimp only
    cases hr : qctx.AddJobSchedulingContext jctx with
    | mk qctx1 res =>
      have h1 : P qctx1 := by
        have := hP qctx jctx (h _ _ hl)
        rwa [hr] at this
      cases res with
      | error e => dsimp only; exact h
      | ok ev =>
        dsimp only
        split
        · split
          · exact queuesInv_update _ _ _ h h1
          · exact queuesInv_update _ _ _ h h1
        · exact queuesInv_update _ _ _ h h1

theorem queuesInv_addGangAux [DecidableEq PC] {P : QueueSchedulingContext R PC → Prop}
    (hP : ∀ qctx jctx, P qctx → P (qctx.AddJobSchedulingContext jctx).1)
    (l : List (JobSchedulingContext R PC)) :
    ∀ (sctx : SchedulingContext R PC K) (ae as : Bool), QueuesInv P sctx →
      QueuesInv P (sctx.addGangAux ae as l).1 := by
  induction l with
  | nil =>
    intro sctx ae as h
    unfold SchedulingContext.addGangAux
    split
    · exact h
    · exact h
  | cons jctx rest ih =>
    intro sctx ae as h
    unfold SchedulingContext.addGangAux
    cases hr : sctx.AddJobSchedulingContext jctx with
    | mk sctx1 res =>
      have h1 : QueuesInv P sctx1 := by
        have := queuesInv_addJob hP sctx jctx h
        rwa [hr] at this
      cases res with
      | error e => dsimp only; exact h1
      | ok ev => dsimp only; exact ih sctx1 _ _ h1

theorem queuesInv_evictJob [DecidableEq PC] {P : QueueSchedulingContext R PC → Prop}
    (hP : ∀ qctx job, P qctx → P (qctx.EvictJob job).1)
    (sctx : SchedulingContext R PC K) (job : Job R PC)
    (h : QueuesInv P sctx) : QueuesInv P (sctx.EvictJob job).1 := by
  unfold SchedulingContext.EvictJob
  cases hl : sctx.QueueSchedulingContexts job.Queue with
  | none => dsimp only; exact h
  | some qctx =>
    dsimp only
    cases hr : qctx.EvictJob job with
    | mk qctx1 res =>
      have h1 : P qctx1 := by
        have := hP qctx job (h _ _ hl)
        rwa [hr] at this
      cases res with
      | error e => dsimp only; exact h
      | ok ev =>
        dsimp only
        split
        · exact queuesInv_update _ _ _ h h1
        · exact queuesInv_update _ _ _ h h1

theorem queuesInv_evictGangAux [DecidableEq PC] {P : QueueSchedulingContext R PC → Prop}
    (hP : ∀ qctx job, P qctx → P (qctx.EvictJob job).1)
    (l : List (Job R PC)) :
    ∀ (sctx : SchedulingContext R PC K) (allSched : Bool), QueuesInv P sctx →
      QueuesInv P (sctx.evictGangAux allSched l).1 := by
  induction l with
  | nil =>
    intro sctx allSched h
    unfold SchedulingContext.evictGangAux
    split
    · exact h
    · exact h
  | cons job rest ih =>
    intro sctx allSched h
    unfold SchedulingContext.evictGangAux
    cases hr : sctx.EvictJob job with
    | mk sctx1 res =>
      have h1 : QueuesInv P sctx1 := by
        have := queuesInv_evictJob hP sctx job h
        rwa [hr] at this
      cases res with
      | error e => dsimp only; exact h1
      | ok ev => dsimp only; exact ih sctx1 _ h1

theorem queuesInv_addQueue [DecidableEq PC] [Fintype PC]
    {P : QueueSchedulingContext R PC → Prop}
    (hNew : ∀ queue weight initAlloc, P (newQueueSchedulingContext queue weight initAlloc))
    (sctx : SchedulingContext R PC K) (queue : String) (weight : ℚ)
    (init : Option (PC → R → Int)) (h : QueuesInv P sctx) :
    QueuesInv P (sctx.AddQueueSchedulingContext queue weight init).1 := by
  unfold SchedulingContext.AddQueueSchedulingContext
  split
  · exact h
  · exact queuesInv_update _ _ _ h (hNew _ _ _)

/-- The master preservation lemma: a per-queue predicate that holds for
freshly registered queue contexts and is preserved by the queue-level
add and evict is an invariant of every reachable round state. -/
theorem queuesInv_reachable [DecidableEq PC] [Fintype PC] [DecidableEq K]
    {P : QueueSchedulingContext R PC → Prop}
    (hAdd : ∀ qctx jctx, P qctx → P (qctx.AddJobSchedulingContext jctx).1)
    (hEvict : ∀ qctx job, P qctx → P (qctx.EvictJob job).1)
    (hNew : ∀ queue weight initAlloc, P (newQueueSchedulingContext queue weight initAlloc))
    {sctx : SchedulingContext R PC K} (h : Reachable sctx) : QueuesInv P sctx := by
  induction h with
  | init totalResources schedulingKeyOf =>
    intro qn qc hqc
    exact Option.noConfusion hqc
  | step hr hs ih =>
    cases hs with
    | addQueue queue weight init => exact queuesInv_addQueue hNew _ queue weight init ih
    | addJob jctx => exact queuesInv_addJob hAdd _ jctx ih
    | addGang jctxs => exact queuesInv_addGangAux hAdd jctxs _ true true ih
    | evictJob job => exact queuesInv_evictJob hEvict _ job ih
    | evictGang jobs => exact queuesInv_evictGangAux hEvict jobs _ true ih
    | insertUnfeasibleKey k jctx => exact ih
    | clearUnfeasibleKeys => exact ih

theorem allocSumInv_addJob [DecidableEq PC] [Fintype PC]
    (qctx : QueueSchedulingContext R PC) (jctx : JobSchedulingContext R PC)
    (h : AllocSumInv qctx) : AllocSumInv (qctx.AddJobSchedulingContext jctx).1 := by
  by_cases h1 : (qctx.SuccessfulJobSchedulingContexts jctx.JobId).isSome
  · simp [QueueSchedulingContext.AddJobSchedulingContext, h1]
    exact h
  by_cases h2 : (qctx.UnsuccessfulJobSchedulingContexts jctx.JobId).isSome
  · simp [QueueSchedulingContext.AddJobSchedulingContext, h1, h2]
    exact h
  cases hok : jctx.IsSuccessful with
  | false =>
    simp [QueueSchedulingContext.AddJobSchedulingContext, h1, h2, hok]
    exact h
  | true =>
    cases hpr : jctx.PodRequirements with
    | none =>
      simp [QueueSchedulingContext.AddJobSchedulingContext, h1, h2, hok, hpr]
      exact h
    | some pr =>
      cases hev : qctx.EvictedJobsById jctx.JobId <;>
        simp only [QueueSchedulingContext.AddJobSchedulingContext, AllocSumInv, h1, h2,
          hok, hpr, hev, Bool.false_eq_true, if_false, if_true, Option.isSome_none,
          Bool.true_eq_false, eq_self_iff_true] <;>
        · intro r
          simp [sum_addAt, h r]

theorem allocSumInv_evictJob [DecidableEq PC] [Fintype PC]
    (qctx : QueueSchedulingContext R PC) (job : Job R PC)
    (h : AllocSumInv qctx) : AllocSumInv (qctx.EvictJob job).1 := by
  by_cases h1 : (qctx.UnsuccessfulJobSchedulingContexts job.Id).isSome
  · simp [QueueSchedulingContext.EvictJob, h1]
    exact h
  cases he : qctx.EvictedJobsById job.Id with
  | true =>
    simp [QueueSchedulingContext.EvictJob, h1, he]
    exact h
  | false =>
    cases hs : (qctx.SuccessfulJobSchedulingContexts job.Id).isSome <;>
      simp only [QueueSchedulingContext.EvictJob, AllocSumInv, h1, he, hs,
        Bool.false_eq_true, if_false, if_true, Bool.true_eq_false,
        eq_self_iff_true] <;>
      · intro r
        simp [sum_subAt, h r]

theorem allocSumInv_new [Fintype PC] (queue : String) (weight : ℚ)
    (initAlloc : PC → R → Int) :
    AllocSumInv (newQueueSchedulingContext queue weight initAlloc) :=
  fun _ => rfl

theorem succDisjoint_addJob [DecidableEq PC]
    (qctx : QueueSchedulingContext R PC) (jctx : JobSchedulingContext R PC)
    (h : SuccessfulDisjoint qctx) :
    SuccessfulDisjoint (qctx.AddJobSchedulingContext jctx).1 := by
  by_cases h1 : (qctx.SuccessfulJobSchedulingContexts jctx.JobId).isSome
  · simp [QueueSchedulingContext.AddJobSchedulingContext, h1]
    exact h
  by_cases h2 : (qctx.UnsuccessfulJobSchedulingContexts jctx.JobId).isSome
  · simp [QueueSchedulingContext.AddJobSchedulingContext, h1, h2]
    exact h
  cases hok : jctx.IsSuccessful with
  | false =>
    simp only [QueueSchedulingContext.AddJobSchedulingContext, SuccessfulDisjoint, h1, h2,
      hok, Bool.false_eq_true, if_false, if_true, eq_self_iff_true]
    intro id hs
    obtain ⟨hu, he⟩ := h id hs
    refine ⟨?_, he⟩
    by_cases hid : id = jctx.JobId
    · subst hid
      exact absurd hs h1
    · rw [Function.update_noteq hid]
      exact hu
  | true =>
    cases hpr : jctx.PodRequirements with
    | none =>
      simp [QueueSchedulingContext.AddJobSchedulingContext, h1, h2, hok, hpr]
      exact h
    | some pr =>
      cases hev : qctx.EvictedJobsById jctx.JobId with
      | true =>
        simp only [QueueSchedulingContext.AddJobSchedulingContext, SuccessfulDisjoint, h1,
          h2, hok, hpr, hev, Bool.false_eq_true, if_false, if_true, eq_self_iff_true]
        intro id hs
        obtain ⟨hu, he⟩ := h id hs
        refine ⟨hu, ?_⟩
        by_cases hid : id = jctx.JobId
        · subst hid
          rw [Function.update_same]
        · rw [Function.update_noteq hid]
          exact he
      | false =>
        simp only [QueueSchedulingContext.AddJobSchedulingContext, SuccessfulDisjoint, h1,
          h2, hok, hpr, hev, Bool.false_eq_true, if_false, if_true, eq_self_iff_true]
        intro id hs
        by_cases hid : id = jctx.JobId
        · subst hid
          exact ⟨Option.not_isSome_iff_eq_none.mp h2, hev⟩
        · rw [Function.update_noteq hid] at hs
          exact h id hs

theorem succDisjoint_evictJob [DecidableEq PC]
    (qctx : QueueSchedulingContext R PC) (job : Job R PC)
    (h : SuccessfulDisjoint qctx) : SuccessfulDisjoint (qctx.EvictJob job).1 := by
  by_cases h1 : (qctx.UnsuccessfulJobSchedulingContexts job.Id).isSome
  · simp [QueueSchedulingContext.EvictJob, h1]
    exact h
  cases he : qctx.EvictedJobsById job.Id with
  | true =>
    simp [QueueSchedulingContext.EvictJob, h1, he]
    exact h
  | false =>
    cases hs : (qctx.SuccessfulJobSchedulingContexts job.Id).isSome with
    | true =>
      simp only [QueueSchedulingContext.EvictJob, SuccessfulDisjoint, h1, he, hs,
        Bool.false_eq_true, if_false, if_true, eq_self_iff_true]
      intro id hsid
      by_cases hid : id = job.Id
      · subst hid
        rw [Function.update_same] at hsid
        exact absurd hsid (by simp)
      · rw [Function.update_noteq hid] at hsid
        exact h id hsid
    | false =>
      simp only [QueueSchedulingContext.EvictJob, SuccessfulDisjoint, h1, he, hs,
        Bool.false_eq_true, if_false, if_true, eq_self_iff_true]
      intro id hsid
      obtain ⟨hu, hev⟩ := h id hsid
      refine ⟨hu, ?_⟩
      by_cases hid : id = job.Id
      · subst hid
        exact absurd hsid (by simp [hs])
      · rw [Function.update_noteq hid]
        exact hev

theorem succDisjoint_new [Fintype PC] (queue : String) (weight : ℚ)
    (initAlloc : PC → R → Int) :
    SuccessfulDisjoint (newQueueSchedulingContext queue weight initAlloc) := by
  intro id hs
  exact absurd hs (by simp [newQueueSchedulingContext])

theorem addJob_error_state [DecidableEq PC] (sctx : SchedulingContext R PC K)
    (jctx : JobSchedulingContext R PC) (e : String)
    (h : (sctx.AddJobSchedulingContext jctx).2 = .error e) :
    (sctx.AddJobSchedulingContext jctx).1 = sctx := by
  unfold SchedulingContext.AddJobSchedulingContext at h ⊢
  cases hl : sctx.QueueSchedulingContexts jctx.Job.Queue with
  | none => rfl
  | some qctx =>
    rw [hl] at h
    dsimp only at h ⊢
    cases hr : qctx.AddJobSchedulingContext jctx with
    | mk qctx1 res =>
      rw [hr] at h
      cases res with
      | error e1 => rfl
      | ok ev =>
        dsimp only at h
        split at h <;> first
          | exact Except.noConfusion h
          | (split at h <;> exact Except.noConfusion h)

theorem evictJob_error_state [DecidableEq PC] (sctx : SchedulingContext R PC K)
    (job : Job R PC) (e : String)
    (h : (sctx.EvictJob job).2 = .error e) :
    (sctx.EvictJob job).1 = sctx := by
  unfold SchedulingContext.EvictJob at h ⊢
  cases hl : sctx.QueueSchedulingContexts job.Queue with
  | none => rfl
  | some qctx =>
    rw [hl] at h
    dsimp only at h ⊢
    cases hr : qctx.EvictJob job with
    | mk qctx1 res =>
      rw [hr] at h
      cases res with
      | error e1 => rfl
      | ok ev =>
        dsimp only at h
        split at h <;> exact Except.noConfusion h

theorem addQueue_unfeasibleKeys [DecidableEq PC] [Fintype PC]
    (sctx : SchedulingContext R PC K) (queue : String) (weight : ℚ)
    (init : Option (PC → R → Int)) :
    (sctx.AddQueueSchedulingContext queue weight init).1.UnfeasibleSchedulingKeys =
      sctx.UnfeasibleSchedulingKeys := by
  unfold SchedulingContext.AddQueueSchedulingContext
  split <;> rfl

theorem addJob_unfeasibleKeys [DecidableEq PC] (sctx : SchedulingContext R PC K)
    (jctx : JobSchedulingContext R PC) :
    (sctx.AddJobSchedulingContext jctx).1.UnfeasibleSchedulingKeys =
      sctx.UnfeasibleSchedulingKeys := by
  unfold SchedulingContext.AddJobSchedulingContext
  cases hl : sctx.QueueSchedulingContexts jctx.Job.Queue with
  | none => rfl
  | some qctx =>
    dsimp only
    cases hr : qctx.AddJobSchedulingContext jctx with
    | mk qctx1 res =>
      cases res with
      | error e => rfl
      | ok ev =>
        dsimp only
        split
        · split <;> rfl
        · rfl

theorem addGangAux_unfeasibleKeys [DecidableEq PC]
    (l : List (JobSchedulingContext R PC)) :
    ∀ (sctx : SchedulingContext R PC K) (ae as : Bool),
      (sctx.addGangAux ae as l).1.UnfeasibleSchedulingKeys =
        sctx.UnfeasibleSchedulingKeys := by
  induction l with
  | nil =>
    intro sctx ae as
    unfold SchedulingContext.addGangAux
    split <;> rfl
  | cons jctx rest ih =>
    intro sctx ae as
    unfold SchedulingContext.addGangAux
    cases hr : sctx.AddJobSchedulingContext jctx with
    | mk sctx1 res =>
      have h1 : sctx1.UnfeasibleSchedulingKeys = sctx.UnfeasibleSchedulingKeys := by
        have := addJob_unfeasibleKeys sctx jctx
        rwa [hr] at this
      cases res with
      | error e => exact h1
      | ok ev => dsimp only; rw [ih sctx1 _ _]; exact h1

theorem evictJob_unfeasibleKeys [DecidableEq PC] (sctx : SchedulingContext R PC K)
    (job : Job R PC) :
    (sctx.EvictJob job).1.UnfeasibleSchedulingKeys = sctx.UnfeasibleSchedulingKeys := by
  unfold SchedulingContext.EvictJob
  cases hl : sctx.QueueSchedulingContexts job.Queue with
  | none => rfl
  | some qctx =>
    dsimp only
    cases hr : qctx.EvictJob job with
    | mk qctx1 res =>
      cases res with
      | error e => rfl
      | ok ev =>
        dsimp only
        split <;> rfl

theorem evictGangAux_unfeasibleKeys [DecidableEq PC] (l : List (Job R PC)) :
    ∀ (sctx : SchedulingContext R PC K) (allSched : Bool),
      (sctx.evictGangAux allSched l).1.UnfeasibleSchedulingKeys =
        sctx.UnfeasibleSchedulingKeys := by
  induction l with
  | nil =>
    intro sctx allSched
    unfold SchedulingContext.evictGangAux
    split <;> rfl
  | cons job rest ih =>
    intro sctx allSched
    unfold SchedulingContext.evictGangAux
    cases hr : sctx.EvictJob job with
    | mk sctx1 res =>
      have h1 : sctx1.UnfeasibleSchedulingKeys = sctx.UnfeasibleSchedulingKeys := by
        have := evictJob_unfeasibleKeys sctx job
        rwa [hr] at this
      cases res with
      | error e => exact h1
      | ok ev => dsimp only; rw [ih sctx1 _]; exact h1

theorem addJob_numScheduledGangs [DecidableEq PC] (sctx : SchedulingContext R PC K)
    (jctx : JobSchedulingContext R PC) :
    (sctx.AddJobSchedulingContext jctx).1.NumScheduledGangs = sctx.NumScheduledGangs := by
  unfold SchedulingContext.AddJobSchedulingContext
  cases hl : sctx.QueueSchedulingContexts jctx.Job.Queue with
  | none => rfl
  | some qctx =>
    dsimp only
    cases hr : qctx.AddJobSchedulingContext jctx with
    | mk qctx1 res =>
      cases res with
      | error e => rfl
      | ok ev =>
        dsimp only
        split
        · split <;> rfl
        · rfl

theorem addJob_ok_evicted [DecidableEq PC] (sctx : SchedulingContext R PC K)
    (jctx : JobSchedulingContext R PC) (b : Bool)
    (h : (sctx.AddJobSchedulingContext jctx).2 = .ok b) :
    b = evictedAtEntry sctx jctx := by
  unfold SchedulingContext.AddJobSchedulingContext at h
  unfold evictedAtEntry
  cases hl : sctx.QueueSchedulingContexts jctx.Job.Queue with
  | none =>
    rw [hl] at h
    exact Except.noConfusion h
  | some qctx =>
    rw [hl] at h
    dsimp only at h ⊢
    by_cases h1 : (qctx.SuccessfulJobSchedulingContexts jctx.JobId).isSome
    · simp [QueueSchedulingContext.AddJobSchedulingContext, h1] at h
    by_cases h2 : (qctx.UnsuccessfulJobSchedulingContexts jctx.JobId).isSome
    · simp [QueueSchedulingContext.AddJobSchedulingContext, h1, h2] at h
    cases hok : jctx.IsSuccessful with
    | false =>
      simp [QueueSchedulingContext.AddJobSchedulingContext, h1, h2, hok] at h
      first
        | exact h
        | exact h.symm
    | true =>
      cases hpr : jctx.PodRequirements with
      | none =>
        simp [QueueSchedulingContext.AddJobSchedulingContext, h1, h2, hok, hpr] at h
      | some pr =>
        cases hev : qctx.EvictedJobsById jctx.JobId <;>
          simp [QueueSchedulingContext.AddJobSchedulingContext, h1, h2, hok, hpr, hev]
            at h ⊢ <;>
          exact h

theorem queue_addJob_evicted_other [DecidableEq PC]
    (qctx : QueueSchedulingContext R PC) (jctx : JobSchedulingContext R PC) (id : String)
    (hid : id ≠ jctx.JobId) :
    (qctx.AddJobSchedulingContext jctx).1.EvictedJobsById id =
      qctx.EvictedJobsById id := by
  by_cases h1 : (qctx.SuccessfulJobSchedulingContexts jctx.JobId).isSome
  · simp [QueueSchedulingContext.AddJobSchedulingContext, h1]
  by_cases h2 : (qctx.UnsuccessfulJobSchedulingContexts jctx.JobId).isSome
  · simp [QueueSchedulingContext.AddJobSchedulingContext, h1, h2]
  cases hok : jctx.IsSuccessful with
  | false => simp [QueueSchedulingContext.AddJobSchedulingContext, h1, h2, hok]
  | true =>
    cases hpr : jctx.PodRequirements with
    | none => simp [QueueSchedulingContext.AddJobSchedulingContext, h1, h2, hok, hpr]
    | some pr =>
      cases hev : qctx.EvictedJobsById jctx.JobId with
      | true =>
        simp only [QueueSchedulingContext.AddJobSchedulingContext, h1, h2, hok, hpr, hev,
          Bool.false_eq_true, if_false, if_true, eq_self_iff_true]
        simp [Function.update_noteq hid]
      | false =>
        simp [QueueSchedulingContext.AddJobSchedulingContext, h1, h2, hok, hpr, hev]

theorem addJob_evictedAtEntry_other [DecidableEq PC] (sctx : SchedulingContext R PC K)
    (jctx jc2 : JobSchedulingContext R PC) (hid : jc2.JobId ≠ jctx.JobId) :
    evictedAtEntry (sctx.AddJobSchedulingContext jctx).1 jc2 = evictedAtEntry sctx jc2 := by
  unfold SchedulingContext.AddJobSchedulingContext
  cases hl : sctx.QueueSchedulingContexts jctx.Job.Queue with
  | none => rfl
  | some qctx =>
    dsimp only
    cases hr : qctx.AddJobSchedulingContext jctx with
    | mk qctx1 res =>
      have hq : qctx1.EvictedJobsById jc2.JobId = qctx.EvictedJobsById jc2.JobId := by
        have := queue_addJob_evicted_other qctx jctx jc2.JobId hid
        rwa [hr] at this
      have key : ∀ s1 : SchedulingContext R PC K,
          s1.QueueSchedulingContexts =
            Function.update sctx.QueueSchedulingContexts jctx.Job.Queue (some qctx1) →
          evictedAtEntry s1 jc2 = evictedAtEntry sctx jc2 := by
        intro s1 hs1
        unfold evictedAtEntry
        rw [hs1]
        by_cases hqq : jc2.Job.Queue = jctx.Job.Queue
        · rw [hqq, Function.update_same, hl]
          exact hq
        · rw [Function.update_noteq hqq]
      cases res with
      | error e => rfl
      | ok ev =>
        dsimp only
        split
        · split
          · exact key _ rfl
          · exact key _ rfl
        · exact key _ rfl

theorem addGangAux_spec [DecidableEq PC] (l : List (JobSchedulingContext R PC)) :
    ∀ (sctx : SchedulingContext R PC K) (ae as b : Bool),
      l.Pairwise (fun a c => a.JobId ≠ c.JobId) →
      (sctx.addGangAux ae as l).2 = .ok b →
      ((b = true) ↔ (ae = true ∧ ∀ jc ∈ l, evictedAtEntry sctx jc = true)) ∧
      (sctx.addGangAux ae as l).1.NumScheduledGangs =
        (if (as = true ∧ ∀ jc ∈ l, jc.IsSuccessful = true) ∧
            ¬ (ae = true ∧ ∀ jc ∈ l, evictedAtEntry sctx jc = true)
          then sctx.NumScheduledGangs + 1 else sctx.NumScheduledGangs) := by
  induction l with
  | nil =>
    intro sctx ae as b hp h
    unfold SchedulingContext.addGangAux at h ⊢
    cases hae : ae <;> cases has : as <;>
      subst hae <;> subst has <;> simp at h ⊢ <;> simp [h]
  | cons jc rest ih =>
    intro sctx ae as b hp h
    rw [List.pairwise_cons] at hp
    obtain ⟨hhead, htail⟩ := hp
    unfold SchedulingContext.addGangAux at h ⊢
    cases hr : sctx.AddJobSchedulingContext jc with
    | mk sctx1 res =>
      rw [hr] at h
      cases res with
      | error e =>
        dsimp only at h
        exact Except.noConfusion h
      | ok ev =>
        dsimp only at h ⊢
        obtain ⟨ihb, ihn⟩ := ih sctx1 (ae && ev) (as && jc.IsSuccessful) b htail h
        have hev : ev = evictedAtEntry sctx jc := by
          apply addJob_ok_evicted sctx jc ev
          rw [hr]
        have hnsg : sctx1.NumScheduledGangs = sctx.NumScheduledGangs := by
          have := addJob_numScheduledGangs sctx jc
          rwa [hr] at this
        have hpres : ∀ jc2 ∈ rest, evictedAtEntry sctx1 jc2 = evictedAtEntry sctx jc2 := by
          intro jc2 hmem
          have hne : jc2.JobId ≠ jc.JobId := (hhead jc2 hmem).symm
          have := addJob_evictedAtEntry_other sctx jc jc2 hne
          rwa [hr] at this
        have hforallEv : (∀ jc2 ∈ rest, evictedAtEntry sctx1 jc2 = true) ↔
            (∀ jc2 ∈ rest, evictedAtEntry sctx jc2 = true) := by
          constructor
          · intro hh jc2 hmem
            rw [← hpres jc2 hmem]
            exact hh jc2 hmem
          · intro hh jc2 hmem
            rw [hpres jc2 hmem]
            exact hh jc2 hmem
        have hcondEv : ((ae && ev) = true ∧ ∀ jc2 ∈ rest, evictedAtEntry sctx1 jc2 = true) ↔
            (ae = true ∧ ∀ jc2 ∈ jc :: rest, evictedAtEntry sctx jc2 = true) := by
          rw [Bool.and_eq_true]
          simp only [List.forall_mem_cons, hforallEv, ← hev, and_assoc]
        have hcondSucc : ((as && jc.IsSuccessful) = true ∧
            ∀ jc2 ∈ rest, jc2.IsSuccessful = true) ↔
            (as = true ∧ ∀ jc2 ∈ jc :: rest, jc2.IsSuccessful = true) := by
          rw [Bool.and_eq_true]
          simp only [List.forall_mem_cons, and_assoc]
        constructor
        · rw [ihb]
          exact hcondEv
        · rw [ihn, hnsg, if_congr (and_congr hcondSucc (not_congr hcondEv)) rfl rfl]

/-! ## Claim theorems -/

/-- C10: on the empty job list, `EvictGang` returns `true` and
decrements `NumScheduledGangs` by one while leaving every other field
(all resource counters and job counts) unchanged, because the
all-scheduled flag is vacuously true; symmetrically,
`AddGangSchedulingContext` on an empty gang leaves the state entirely
unchanged (in particular `NumScheduledGangs`), because the
all-pre-evicted flag is vacuously true, and returns `true`. -/
theorem empty_gang_spec [DecidableEq PC] [Fintype PC] (sctx : SchedulingContext R PC K) :
    sctx.EvictGang [] =
      ({ sctx with NumScheduledGangs := sctx.NumScheduledGangs - 1 }, .ok true) ∧
    sctx.AddGangSchedulingContext [] = (sctx, .ok true) := by
  constructor
  · rfl
  · rfl

/-- C9: `AllocatedByQueueAndPriority` returns a map defined exactly on
the registered queues whose `AllocatedByPriorityClass` is not entirely
zero, each mapped to (a copy of) that queue's
`AllocatedByPriorityClass`.  The embedding is pure, so the call cannot
mutate the round or any queue context. -/
theorem allocatedByQueueAndPriority_spec [Fintype R] [Fintype PC]
    (sctx : SchedulingContext R PC K) (queue : String) (t : PC → R → Int) :
    sctx.AllocatedByQueueAndPriority queue = some t ↔
      ∃ qctx, sctx.QueueSchedulingContexts queue = some qctx ∧
        ¬ QuantityIsZero qctx.AllocatedByPriorityClass ∧
        t = qctx.AllocatedByPriorityClass := by
  unfold SchedulingContext.AllocatedByQueueAndPriority
  cases h : sctx.QueueSchedulingContexts queue with
  | none => simp
  | some qctx =>
    by_cases hz : QuantityIsZero qctx.AllocatedByPriorityClass <;>
      simp [hz, eq_comm]

/-- C5: adding a successful `JobSchedulingContext` with present pod
requirements, whose id is in neither the successful nor the unsuccessful
set, always adds the requests to `Allocated` and
`AllocatedByPriorityClass` at the job's class; if the id was evicted it
is removed from the evicted set and the requests are subtracted from
`EvictedResourcesByPriorityClass`, with the decision left out of the
successful set and `ScheduledResourcesByPriorityClass` untouched;
otherwise the decision is stored successful and the requests are added
to `ScheduledResourcesByPriorityClass`.  The returned boolean is the
evicted-at-entry status. -/
theorem queue_addJob_success_spec [DecidableEq PC]
    (qctx : QueueSchedulingContext R PC) (jctx : JobSchedulingContext R PC)
    (pr : PodRequirements R)
    (hsucc : qctx.SuccessfulJobSchedulingContexts jctx.JobId = none)
    (hunsucc : qctx.UnsuccessfulJobSchedulingContexts jctx.JobId = none)
    (hok : jctx.IsSuccessful = true)
    (hpr : jctx.PodRequirements = some pr) :
    (qctx.AddJobSchedulingContext jctx).2 = .ok (qctx.EvictedJobsById jctx.JobId) ∧
    (qctx.AddJobSchedulingContext jctx).1.Allocated = qctx.Allocated + pr.Requests ∧
    (qctx.AddJobSchedulingContext jctx).1.AllocatedByPriorityClass jctx.Job.PriorityClassName =
      qctx.AllocatedByPriorityClass jctx.Job.PriorityClassName + pr.Requests ∧
    (qctx.EvictedJobsById jctx.JobId = true →
      (qctx.AddJobSchedulingContext jctx).1.EvictedJobsById jctx.JobId = false ∧
      (qctx.AddJobSchedulingContext jctx).1.EvictedResourcesByPriorityClass
          jctx.Job.PriorityClassName =
        qctx.EvictedResourcesByPriorityClass jctx.Job.PriorityClassName - pr.Requests ∧
      (qctx.AddJobSchedulingContext jctx).1.SuccessfulJobSchedulingContexts jctx.JobId =
        none ∧
      (qctx.AddJobSchedulingContext jctx).1.ScheduledResourcesByPriorityClass =
        qctx.ScheduledResourcesByPriorityClass) ∧
    (qctx.EvictedJobsById jctx.JobId = false →
      (qctx.AddJobSchedulingContext jctx).1.SuccessfulJobSchedulingContexts jctx.JobId =
        some jctx ∧
      (qctx.AddJobSchedulingContext jctx).1.ScheduledResourcesByPriorityClass
          jctx.Job.PriorityClassName =
        qctx.ScheduledResourcesByPriorityClass jctx.Job.PriorityClassName + pr.Requests ∧
      (qctx.AddJobSchedulingContext jctx).1.EvictedResourcesByPriorityClass =
        qctx.EvictedResourcesByPriorityClass ∧
      (qctx.AddJobSchedulingContext jctx).1.EvictedJobsById = qctx.EvictedJobsById) := by
  cases he : qctx.EvictedJobsById jctx.JobId <;>
    simp [QueueSchedulingContext.AddJobSchedulingContext, hsucc, hunsucc, hok, hpr, he]

/-- C6: with the job's queue registered, evicting fails iff the id is
already unsuccessful or already evicted; otherwise, if the id is
successful, the requests leave `ScheduledResourcesByPriorityClass` and
the successful set, and at round level the scheduled totals decrease and
`NumScheduledJobs` is decremented; if not, the requests enter
`EvictedResourcesByPriorityClass` and the evicted set, and at round
level the evicted totals increase and `NumEvictedJobs` is incremented.
In both branches the requests are subtracted from the queue's
`Allocated` and `AllocatedByPriorityClass`. -/
theorem evictJob_spec [DecidableEq PC] (sctx : SchedulingContext R PC K)
    (job : Job R PC) (qctx : QueueSchedulingContext R PC)
    (hq : sctx.QueueSchedulingContexts job.Queue = some qctx) :
    (IsErrorResult (sctx.EvictJob job).2 =
      ((qctx.UnsuccessfulJobSchedulingContexts job.Id).isSome ||
        qctx.EvictedJobsById job.Id)) ∧
    (qctx.UnsuccessfulJobSchedulingContexts job.Id = none →
      qctx.EvictedJobsById job.Id = false →
      (sctx.EvictJob job).2 = .ok (qctx.SuccessfulJobSchedulingContexts job.Id).isSome ∧
      (∃ qctx1, (sctx.EvictJob job).1.QueueSchedulingContexts job.Queue = some qctx1 ∧
        qctx1.Allocated = qctx.Allocated - job.Requests ∧
        qctx1.AllocatedByPriorityClass job.PriorityClassName =
          qctx.AllocatedByPriorityClass job.PriorityClassName - job.Requests ∧
        ((qctx.SuccessfulJobSchedulingContexts job.Id).isSome = true →
          qctx1.ScheduledResourcesByPriorityClass job.PriorityClassName =
            qctx.ScheduledResourcesByPriorityClass job.PriorityClassName - job.Requests ∧
          qctx1.SuccessfulJobSchedulingContexts job.Id = none ∧
          qctx1.EvictedResourcesByPriorityClass = qctx.EvictedResourcesByPriorityClass ∧
          qctx1.EvictedJobsById = qctx.EvictedJobsById) ∧
        ((qctx.SuccessfulJobSchedulingContexts job.Id).isSome = false →
          qctx1.EvictedResourcesByPriorityClass job.PriorityClassName =
            qctx.EvictedResourcesByPriorityClass job.PriorityClassName + job.Requests ∧
          qctx1.EvictedJobsById job.Id = true ∧
          qctx1.ScheduledResourcesByPriorityClass = qctx.ScheduledResourcesByPriorityClass ∧
          qctx1.SuccessfulJobSchedulingContexts = qctx.SuccessfulJobSchedulingContexts)) ∧
      ((qctx.SuccessfulJobSchedulingContexts job.Id).isSome = true →
        (sctx.EvictJob job).1.ScheduledResources = sctx.ScheduledResources - job.Requests ∧
        (sctx.EvictJob job).1.ScheduledResourcesByPriorityClass job.PriorityClassName =
          sctx.ScheduledResourcesByPriorityClass job.PriorityClassName - job.Requests ∧
        (sctx.EvictJob job).1.NumScheduledJobs = sctx.NumScheduledJobs - 1 ∧
        (sctx.EvictJob job).1.EvictedResources = sctx.EvictedResources ∧
        (sctx.EvictJob job).1.NumEvictedJobs = sctx.NumEvictedJobs) ∧
      ((qctx.SuccessfulJobSchedulingContexts job.Id).isSome = false →
        (sctx.EvictJob job).1.EvictedResources = sctx.EvictedResources + job.Requests ∧
        (sctx.EvictJob job).1.EvictedResourcesByPriorityClass job.PriorityClassName =
          sctx.EvictedResourcesByPriorityClass job.PriorityClassName + job.Requests ∧
        (sctx.EvictJob job).1.NumEvictedJobs = sctx.NumEvictedJobs + 1 ∧
        (sctx.EvictJob job).1.ScheduledResources = sctx.ScheduledResources ∧
        (sctx.EvictJob job).1.NumScheduledJobs = sctx.NumScheduledJobs)) := by
  cases hu : qctx.UnsuccessfulJobSchedulingContexts job.Id with
  | some j =>
    simp [SchedulingContext.EvictJob, QueueSchedulingContext.EvictJob, hq, hu,
      IsErrorResult]
  | none =>
    cases he : qctx.EvictedJobsById job.Id <;>
      cases hs : (qctx.SuccessfulJobSchedulingContexts job.Id).isSome <;>
        simp [SchedulingContext.EvictJob, QueueSchedulingContext.EvictJob, hq, hu, he,
          hs, IsErrorResult]

/-- C1: evicting a job that is in none of its queue's decision sets
(so the eviction places it in the evicted set) and then applying a
successful decision for it in the same round restores the round's
`ScheduledResources`, `EvictedResources`, `NumScheduledJobs` and
`NumEvictedJobs`, and the queue's
`ScheduledResourcesByPriorityClass` and
`EvictedResourcesByPriorityClass` at the job's class, to their
pre-eviction values, while the queue's `Allocated` and
`AllocatedByPriorityClass` end unchanged from the pre-eviction state. -/
theorem evict_then_schedule_cancels [DecidableEq PC] (sctx : SchedulingContext R PC K)
    (job : Job R PC) (jctx : JobSchedulingContext R PC)
    (qctx : QueueSchedulingContext R PC)
    (hq : sctx.QueueSchedulingContexts job.Queue = some qctx)
    (hns : qctx.SuccessfulJobSchedulingContexts job.Id = none)
    (hnu : qctx.UnsuccessfulJobSchedulingContexts job.Id = none)
    (hne : qctx.EvictedJobsById job.Id = false)
    (hid : jctx.JobId = job.Id) (hjob : jctx.Job = job)
    (hpr : jctx.PodRequirements = some { Requests := job.Requests })
    (hok : jctx.IsSuccessful = true) :
    ((sctx.EvictJob job).1.AddJobSchedulingContext jctx).2 = .ok true ∧
    ((sctx.EvictJob job).1.AddJobSchedulingContext jctx).1.ScheduledResources =
      sctx.ScheduledResources ∧
    ((sctx.EvictJob job).1.AddJobSchedulingContext jctx).1.EvictedResources =
      sctx.EvictedResources ∧
    ((sctx.EvictJob job).1.AddJobSchedulingContext jctx).1.NumScheduledJobs =
      sctx.NumScheduledJobs ∧
    ((sctx.EvictJob job).1.AddJobSchedulingContext jctx).1.NumEvictedJobs =
      sctx.NumEvictedJobs ∧
    (∃ qctx2,
      ((sctx.EvictJob job).1.AddJobSchedulingContext jctx).1.QueueSchedulingContexts
          job.Queue = some qctx2 ∧
      qctx2.ScheduledResourcesByPriorityClass job.PriorityClassName =
        qctx.ScheduledResourcesByPriorityClass job.PriorityClassName ∧
      qctx2.EvictedResourcesByPriorityClass job.PriorityClassName =
        qctx.EvictedResourcesByPriorityClass job.PriorityClassName ∧
      qctx2.Allocated = qctx.Allocated ∧
      qctx2.AllocatedByPriorityClass job.PriorityClassName =
        qctx.AllocatedByPriorityClass job.PriorityClassName) := by
  have hs : (qctx.SuccessfulJobSchedulingContexts job.Id).isSome = false := by
    simp [hns]
  obtain ⟨jid, jjob, jpr, jreason⟩ := jctx
  simp only [JobSchedulingContext.IsSuccessful, beq_iff_eq] at hid hjob hpr hok
  subst hid hjob hpr hok
  simp [SchedulingContext.EvictJob, QueueSchedulingContext.EvictJob,
    SchedulingContext.AddJobSchedulingContext, QueueSchedulingContext.AddJobSchedulingContext,
    JobSchedulingContext.Requests, JobSchedulingContext.IsSuccessful, hq, hns, hnu, hne, hs]

/-- C7: in every reachable round state (reachable means: obtained from a
fresh round by any sequence of public operations), every registered
queue's total `Allocated` vector equals the sum over priority classes of
its `AllocatedByPriorityClass`; the invariant is established at
registration, where `Allocated` is initialised to the sum of the
deep-copied per-class entries, and preserved by every job apply and
evict. -/
theorem allocated_sum_invariant [DecidableEq PC] [Fintype PC] [DecidableEq K]
    {sctx : SchedulingContext R PC K} (h : Reachable sctx) :
    QueuesInv AllocSumInv sctx :=
  queuesInv_reachable allocSumInv_addJob allocSumInv_evictJob allocSumInv_new h

/-- Witness for C7 at a concrete reachable state: the fixture round with
queue `A` registered. -/
theorem allocated_sum_invariant_witness : QueuesInv AllocSumInv exSctx1 :=
  allocated_sum_invariant
    (Reachable.step (Reachable.init (fun _ => 10) (fun _ => ()))
      (Step.addQueue exSctx0 "A" 1 none))

/-- C2 (as stated) is false: from a fresh round, register queue `A`,
evict the fresh job `j1` (which enters the evicted set), then apply an
unsuccessful decision for `j1`; the operation succeeds and leaves `j1`
in both the evicted set and the unsuccessful set of queue `A`, so the
three decision sets are not pairwise disjoint. -/
theorem decision_sets_disjoint_counterexample :
    ¬ ∀ (sctx : SchedulingContext (Fin 1) (Fin 1) Unit), Reachable sctx →
      QueuesInv DecisionSetsDisjoint sctx := by
  intro hall
  have hreach : Reachable (exSctxEvicted.AddJobSchedulingContext exJctxFail).1 :=
    Reachable.step
      (Reachable.step
        (Reachable.step (Reachable.init (fun _ => 10) (fun _ => ()))
          (Step.addQueue exSctx0 "A" 1 none))
        (Step.evictJob exSctx1 exJob))
      (Step.addJob exSctxEvicted exJctxFail)
  have h2 := ((hall _ hreach "A" _ rfl) "j1").2 rfl
  exact Bool.noConfusion (show (true : Bool) = false from h2)

/-- C2 (amended): in every reachable round state, every registered
queue's successful decision set is disjoint from its unsuccessful set
and from its evicted set.  (The unsuccessful and evicted sets may
intersect: an unsuccessful decision for a currently evicted job id
leaves the id in both.) -/
theorem successful_disjoint_invariant [DecidableEq PC] [Fintype PC] [DecidableEq K]
    {sctx : SchedulingContext R PC K} (h : Reachable sctx) :
    QueuesInv SuccessfulDisjoint sctx :=
  queuesInv_reachable succDisjoint_addJob succDisjoint_evictJob succDisjoint_new h

/-- Witness for the amended C2 at a concrete reachable state: the
fixture round with queue `A` registered and job `j1` evicted. -/
theorem successful_disjoint_invariant_witness :
    QueuesInv SuccessfulDisjoint exSctxEvicted :=
  successful_disjoint_invariant
    (Reachable.step
      (Reachable.step (Reachable.init (fun _ => 10) (fun _ => ()))
        (Step.addQueue exSctx0 "A" 1 none))
      (Step.evictJob exSctx1 exJob))

/-- C4 (as stated) is false: gang-level apply is not atomic.  Applying a
gang whose first decision is valid and whose second is successful but
lacks pod requirements returns an error, yet the state differs from the
pre-call state: the first decision's effects (for instance on
`NumScheduledJobs`) persist. -/
theorem error_atomicity_counterexample :
    ¬ ∀ (sctx : SchedulingContext (Fin 1) (Fin 1) Unit)
        (jctxs : List (JobSchedulingContext (Fin 1) (Fin 1))) (e : String),
        (sctx.AddGangSchedulingContext jctxs).2 = .error e →
        (sctx.AddGangSchedulingContext jctxs).1 = sctx := by
  intro hall
  have h := hall exSctx1 [exJctxOk, exJctxNoReqs]
    "failed adding job to queue: job requirements are missing" rfl
  have h2 : (exSctx1.AddGangSchedulingContext [exJctxOk, exJctxNoReqs]).1.NumScheduledJobs =
      exSctx1.NumScheduledJobs := by rw [h]
  exact absurd (show (1 : Int) = 0 from h2) (by norm_num)

/-- C4 (amended): the per-job public mutating operations — queue
registration, single-job apply (at round and queue level) and single-job
evict (at round and queue level) — are atomic: a call that returns an
error leaves the state exactly as it was before the call.  Gang-level
apply and evict are atomic only per member: on error, members applied
before the failing one retain their effects. -/
theorem per_job_ops_error_atomicity [DecidableEq PC] [Fintype PC]
    (sctx : SchedulingContext R PC K) :
    (∀ queue weight init e,
      (sctx.AddQueueSchedulingContext queue weight init).2 = .error e →
      (sctx.AddQueueSchedulingContext queue weight init).1 = sctx) ∧
    (∀ jctx e, (sctx.AddJobSchedulingContext jctx).2 = .error e →
      (sctx.AddJobSchedulingContext jctx).1 = sctx) ∧
    (∀ job e, (sctx.EvictJob job).2 = .error e → (sctx.EvictJob job).1 = sctx) ∧
    (∀ (qctx : QueueSchedulingContext R PC) jctx e,
      (qctx.AddJobSchedulingContext jctx).2 = .error e →
      (qctx.AddJobSchedulingContext jctx).1 = qctx) ∧
    (∀ (qctx : QueueSchedulingContext R PC) job e,
      (qctx.EvictJob job).2 = .error e → (qctx.EvictJob job).1 = qctx) := by
  refine ⟨?_, ?_, ?_, ?_, ?_⟩
  · intro queue weight init e h
    by_cases h1 : (sctx.QueueSchedulingContexts queue).isSome
    · simp [SchedulingContext.AddQueueSchedulingContext, h1]
    · simp [SchedulingContext.AddQueueSchedulingContext, h1] at h
  · intro jctx e h
    exact addJob_error_state sctx jctx e h
  · intro job e h
    exact evictJob_error_state sctx job e h
  · intro qctx jctx e h
    by_cases h1 : (qctx.SuccessfulJobSchedulingContexts jctx.JobId).isSome
    · simp [QueueSchedulingContext.AddJobSchedulingContext, h1]
    by_cases h2 : (qctx.UnsuccessfulJobSchedulingContexts jctx.JobId).isSome
    · simp [QueueSchedulingContext.AddJobSchedulingContext, h1, h2]
    cases hok : jctx.IsSuccessful with
    | false => simp [QueueSchedulingContext.AddJobSchedulingContext, h1, h2, hok] at h
    | true =>
      cases hpr : jctx.PodRequirements with
      | none => simp [QueueSchedulingContext.AddJobSchedulingContext, h1, h2, hok, hpr]
      | some pr =>
        cases hev : qctx.EvictedJobsById jctx.JobId <;>
          simp [QueueSchedulingContext.AddJobSchedulingContext, h1, h2, hok, hpr, hev] at h
  · intro qctx job e h
    by_cases h1 : (qctx.UnsuccessfulJobSchedulingContexts job.Id).isSome
    · simp [QueueSchedulingContext.EvictJob, h1]
    cases he : qctx.EvictedJobsById job.Id with
    | true => simp [QueueSchedulingContext.EvictJob, h1, he]
    | false => simp [QueueSchedulingContext.EvictJob, h1, he] at h

/-- Witness for the amended C4 at a concrete input: re-registering the
already-registered queue `A` fails and leaves the round unchanged. -/
theorem per_job_ops_error_atomicity_witness :
    (exSctx1.AddQueueSchedulingContext "A" 1 none).1 = exSctx1 :=
  (per_job_ops_error_atomicity exSctx1).1 "A" 1 none
    "there already exists a context for queue" rfl

/-- C8 (as stated) is false: nothing removes a key from the
infeasible-key cache when a job with that scheduling key is recorded
successful.  Register queue `A`, insert a key into the cache, then apply
a successful decision whose job has that key: the cache still contains
the key. -/
theorem unfeasible_keys_invariant_counterexample :
    ¬ ∀ (sctx : SchedulingContext (Fin 1) (Fin 1) Unit), Reachable sctx →
      UnfeasibleKeysInv sctx := by
  intro hall
  have hreach :
      Reachable ((exSctx1.InsertUnfeasibleSchedulingKey () exJctxFail).AddJobSchedulingContext
        exJctxOk).1 :=
    Reachable.step
      (Reachable.step
        (Reachable.step (Reachable.init (fun _ => 10) (fun _ => ()))
          (Step.addQueue exSctx0 "A" 1 none))
        (Step.insertUnfeasibleKey exSctx1 () exJctxFail))
      (Step.addJob (exSctx1.InsertUnfeasibleSchedulingKey () exJctxFail) exJctxOk)
  have h := hall _ hreach () exJctxFail rfl
  exact h ⟨"A", _, "j1", exJctxOk, rfl, rfl, rfl⟩

/-- C8 (amended): queue registration, job and gang apply, and job and
gang evict never modify the infeasible-key cache.  In particular
recording a successful decision does not remove its scheduling key, so
the cache can hold a key for which a successful decision is recorded
until the caller clears or overwrites it. -/
theorem ops_preserve_unfeasibleKeys [DecidableEq PC] [Fintype PC]
    (sctx : SchedulingContext R PC K) :
    (∀ queue weight init,
      (sctx.AddQueueSchedulingContext queue weight init).1.UnfeasibleSchedulingKeys =
        sctx.UnfeasibleSchedulingKeys) ∧
    (∀ jctx, (sctx.AddJobSchedulingContext jctx).1.UnfeasibleSchedulingKeys =
      sctx.UnfeasibleSchedulingKeys) ∧
    (∀ jctxs, (sctx.AddGangSchedulingContext jctxs).1.UnfeasibleSchedulingKeys =
      sctx.UnfeasibleSchedulingKeys) ∧
    (∀ job, (sctx.EvictJob job).1.UnfeasibleSchedulingKeys =
      sctx.UnfeasibleSchedulingKeys) ∧
    (∀ jobs, (sctx.EvictGang jobs).1.UnfeasibleSchedulingKeys =
      sctx.UnfeasibleSchedulingKeys) :=
  ⟨fun queue weight init => addQueue_unfeasibleKeys sctx queue weight init,
    fun jctx => addJob_unfeasibleKeys sctx jctx,
    fun jctxs => addGangAux_unfeasibleKeys jctxs sctx true true,
    fun job => evictJob_unfeasibleKeys sctx job,
    fun jobs => evictGangAux_unfeasibleKeys jobs sctx true⟩

/-- C3 (as stated) is false on gangs that repeat a job id: applying a
gang made of two successful decisions for the same pre-evicted job id
returns without error; every contained decision is successful and every
one was in its queue's evicted set at entry to the call, yet
`NumScheduledGangs` is incremented (the second copy is applied after the
first removed the id from the evicted set, so the loop sees it as newly
scheduled). -/
theorem addGang_gangCount_counterexample :
    ¬ ∀ (sctx : SchedulingContext (Fin 1) (Fin 1) Unit)
        (jctxs : List (JobSchedulingContext (Fin 1) (Fin 1))) (b : Bool),
        (sctx.AddGangSchedulingContext jctxs).2 = .ok b →
        (sctx.AddGangSchedulingContext jctxs).1.NumScheduledGangs =
          (if (∀ jc ∈ jctxs, jc.IsSuccessful = true) ∧
              (∃ jc ∈ jctxs, evictedAtEntry sctx jc = false)
            then sctx.NumScheduledGangs + 1 else sctx.NumScheduledGangs) := by
  intro hall
  have h := hall exSctxEvicted [exJctxOk, exJctxOk] false rfl
  rw [if_neg] at h
  · exact absurd (show (1 : Int) = 0 from h) (by norm_num)
  · rintro ⟨hsucc, jc, hmem, hev⟩
    have hjc : jc = exJctxOk := by
      simpa using hmem
    rw [hjc] at hev
    exact Bool.noConfusion ((rfl : evictedAtEntry exSctxEvicted exJctxOk = true).symm.trans
      hev)

/-- C3 (amended): for a gang whose decisions carry pairwise distinct job
ids, a call to `AddGangSchedulingContext` that returns without error
increments `NumScheduledGangs` by exactly 1 if every contained decision
is successful and at least one of them was not in its queue's evicted
set at entry; in every other non-error case `NumScheduledGangs` is left
unchanged.  (Without the distinctness hypothesis the counterexample
above applies.) -/
theorem addGang_gangCount_spec [DecidableEq PC] (sctx : SchedulingContext R PC K)
    (jctxs : List (JobSchedulingContext R PC)) (b : Bool)
    (hdist : jctxs.Pairwise (fun a c => a.JobId ≠ c.JobId))
    (h : (sctx.AddGangSchedulingContext jctxs).2 = .ok b) :
    (sctx.AddGangSchedulingContext jctxs).1.NumScheduledGangs =
      (if (∀ jc ∈ jctxs, jc.IsSuccessful = true) ∧
          (∃ jc ∈ jctxs, evictedAtEntry sctx jc = false)
        then sctx.NumScheduledGangs + 1 else sctx.NumScheduledGangs) := by
  have hspec := (addGangAux_spec jctxs sctx true true b hdist h).2
  unfold SchedulingContext.AddGangSchedulingContext
  rw [hspec]
  have hc : ((true = true ∧ ∀ jc ∈ jctxs, jc.IsSuccessful = true) ∧
      ¬ (true = true ∧ ∀ jc ∈ jctxs, evictedAtEntry sctx jc = true)) ↔
      ((∀ jc ∈ jctxs, jc.IsSuccessful = true) ∧
      (∃ jc ∈ jctxs, evictedAtEntry sctx jc = false)) := by
    simp [not_forall, Bool.not_eq_true]
  rw [if_congr hc rfl rfl]

/-- Witness for the amended C3 at a concrete input: a singleton gang of
one successful, not pre-evicted decision on the fixture round. -/
theorem addGang_gangCount_spec_witness :
    (exSctx1.AddGangSchedulingContext [exJctxOk]).1.NumScheduledGangs =
      (if (∀ jc ∈ [exJctxOk], jc.IsSuccessful = true) ∧
          (∃ jc ∈ [exJctxOk], evictedAtEntry exSctx1 jc = false)
        then exSctx1.NumScheduledGangs + 1 else exSctx1.NumScheduledGangs) :=
  addGang_gangCount_spec exSctx1 [exJctxOk] false (by simp) rfl

/-- Witness for C5 at a concrete input: an empty queue context and a
successful decision for job `j1` requesting 2 units. -/
theorem queue_addJob_success_spec_witness :
    (exQctx0.AddJobSchedulingContext exJctxOk).2 = .ok false ∧
    (exQctx0.AddJobSchedulingContext exJctxOk).1.SuccessfulJobSchedulingContexts "j1" =
      some exJctxOk :=
  ⟨(queue_addJob_success_spec exQctx0 exJctxOk ⟨fun _ => 2⟩ rfl rfl rfl rfl).1,
    ((queue_addJob_success_spec exQctx0 exJctxOk ⟨fun _ => 2⟩ rfl rfl rfl rfl).2.2.2.2
      rfl).1⟩

/-- Witness for C6 at a concrete input: evicting the fresh job `j1` from
the round with queue `A` registered succeeds and increments
`NumEvictedJobs`. -/
theorem evictJob_spec_witness :
    IsErrorResult (exSctx1.EvictJob exJob).2 = false ∧
    (exSctx1.EvictJob exJob).1.NumEvictedJobs = exSctx1.NumEvictedJobs + 1 :=
  ⟨(evictJob_spec exSctx1 exJob _ rfl).1,
    (((evictJob_spec exSctx1 exJob _ rfl).2 rfl rfl).2.2.2 rfl).2.2.1⟩

/-- Witness for C1 at a concrete input: evicting the fresh job `j1` and
then applying a successful decision for it succeeds and restores
`NumEvictedJobs`. -/
theorem evict_then_schedule_cancels_witness :
    ((exSctx1.EvictJob exJob).1.AddJobSchedulingContext exJctxOk).2 = .ok true ∧
    ((exSctx1.EvictJob exJob).1.AddJobSchedulingContext exJctxOk).1.NumEvictedJobs =
      exSctx1.NumEvictedJobs :=
  ⟨(evict_then_schedule_cancels exSctx1 exJob exJctxOk _ rfl rfl rfl rfl rfl rfl rfl
      rfl).1,
    (evict_then_schedule_cancels exSctx1 exJob exJctxOk _ rfl rfl rfl rfl rfl rfl rfl
      rfl).2.2.2.2.1⟩

end ArmadaSchedCtx
